import Mathlib

/-!
Verification of the wallet-app ledger (internal/wallet).

A shallow embedding of `internal/wallet/wallet.go` and
`internal/wallet/types.go`.  Go `decimal.Decimal` values are exact
fixed-point numbers closed under addition, subtraction and comparison,
so amounts and balances are modelled as `Rat`; the `float64`
convenience interfaces convert to decimal at the boundary before any
arithmetic, so operations take the already-converted value.  The Go
maps `users` and `wallets` are modelled as functions into `Option`;
the append-only `transactions` slice is a `List`.  Clock reads
(`time.Now().UnixNano()` for the transaction id, `time.Now().Unix()`
for the timestamp) are external inputs and appear as explicit `nano`
and `sec` parameters.  Each mutating operation returns the Go error
(`Option WalletError`), the post-state, and a trace of the lock
acquisitions, balance writes and log appends it performed, in source
order, so that lock-ordering statements can be made.
-/

/-- `types.go`: the five error values. -/
inductive WalletError
  | ErrUserNotFound
  | ErrInsufficientBalance
  | ErrInvalidAmount
  | ErrSameUserTransfer
  | ErrUserAlreadyExists
deriving DecidableEq

/-- `types.go`: `User` record. -/
structure User where
  ID : String
  Name : String
  Email : String
deriving DecidableEq

/-- `types.go`: `Wallet` record (the `sync.RWMutex` field carries no data). -/
structure Wallet where
  UserID : String
  Balance : Rat
deriving DecidableEq

/-- `types.go`: `TransactionType` constants. -/
inductive TransactionType
  | deposit
  | withdraw
  | transfer
deriving DecidableEq

/-- `types.go`: `Transaction` record.  `Type` is a reserved word in Lean,
so the Go field `Type` is called `Type'`. -/
structure Transaction where
  ID : String
  FromUserID : String
  ToUserID : String
  Amount : Rat
  Type' : TransactionType
  Description : String
  Timestamp : Int
deriving DecidableEq

/-- The locks of `wallet.go`: the service-wide `ws.mu`, the per-user
locks handed out by `userLockManager` (identified by the user id, which
is faithful because `getLock` is get-or-create and locks are never
removed), and the per-wallet `wallet.mu`. -/
inductive LockId
  | serviceMu
  | userLock (id : String)
  | walletMu (id : String)
deriving DecidableEq

/-- Observable events of one operation, in source order. -/
inductive Ev
  | acquire (l : LockId)
  | mutate (id : String)
  | logAppend
deriving DecidableEq

/-- `wallet.go`: `WalletService` state (mutexes carry no data). -/
structure WalletService where
  users : String → Option User
  wallets : String → Option Wallet
  transactions : List Transaction

/-- Go map assignment `m[k] = v`. -/
def mapSet {α : Type} (m : String → Option α) (k : String) (v : α) :
    String → Option α :=
  fun x => if x = k then some v else m x

/-- `wallet.go`: `NewWalletService`. -/
def NewWalletService : WalletService :=
  { users := fun _ => none
    wallets := fun _ => none
    transactions := [] }

/-- `wallet.go`: `generateTransactionID`, `fmt.Sprintf("tx_%d", time.Now().UnixNano())`
with the clock reading passed in. -/
def generateTransactionID (nano : Int) : String :=
  "tx_" ++ toString nano

/-- `wallet.go`: `getOrderedLocks`.  Locks are identified by their user
id (one lock per id, get-or-create, never removed); Go's byte-wise
string `<` agrees with code-point order on UTF-8, i.e. with `String` order. -/
def getOrderedLocks (userID1 userID2 : String) : String × String :=
  if userID1 < userID2 then (userID1, userID2) else (userID2, userID1)

/-- `wallet.go`: `CreateUser`. -/
def CreateUser (ws : WalletService) (userID name email : String) :
    Option WalletError × WalletService :=
  match ws.users userID with
  | some _ => (some .ErrUserAlreadyExists, ws)
  | none =>
      let user : User := { ID := userID, Name := name, Email := email }
      let wallet : Wallet := { UserID := userID, Balance := 0 }
      (none,
       { ws with
          users := mapSet ws.users userID user
          wallets := mapSet ws.wallets userID wallet })

/-- `wallet.go`: `Deposit`.  `amount` is the exact decimal obtained from
`decimal.NewFromFloat` at the boundary. -/
def Deposit (ws : WalletService) (userID : String) (amount : Rat)
    (description : String) (nano sec : Int) :
    Option WalletError × WalletService × List Ev :=
  if amount ≤ 0 then
    (some .ErrInvalidAmount, ws, [])
  else
    match ws.wallets userID with
    | none =>
        (some .ErrUserNotFound, ws,
         [.acquire (.userLock userID), .acquire .serviceMu])
    | some wallet =>
        let wallet' : Wallet := { wallet with Balance := wallet.Balance + amount }
        let tx : Transaction :=
          { ID := generateTransactionID nano
            FromUserID := userID
            ToUserID := userID
            Amount := amount
            Type' := .deposit
            Description := description
            Timestamp := sec }
        (none,
         { ws with
            wallets := mapSet ws.wallets userID wallet'
            transactions := ws.transactions ++ [tx] },
         [.acquire (.userLock userID), .acquire .serviceMu,
          .acquire (.walletMu userID), .mutate userID,
          .acquire .serviceMu, .logAppend])

/-- `wallet.go`: `DepositDecimal` (same body as `Deposit`, the amount
already being a decimal). -/
def DepositDecimal (ws : WalletService) (userID : String) (amount : Rat)
    (description : String) (nano sec : Int) :
    Option WalletError × WalletService × List Ev :=
  if amount ≤ 0 then
    (some .ErrInvalidAmount, ws, [])
  else
    match ws.wallets userID with
    | none =>
        (some .ErrUserNotFound, ws,
         [.acquire (.userLock userID), .acquire .serviceMu])
    | some wallet =>
        let wallet' : Wallet := { wallet with Balance := wallet.Balance + amount }
        let tx : Transaction :=
          { ID := generateTransactionID nano
            FromUserID := userID
            ToUserID := userID
            Amount := amount
            Type' := .deposit
            Description := description
            Timestamp := sec }
        (none,
         { ws with
            wallets := mapSet ws.wallets userID wallet'
            transactions := ws.transactions ++ [tx] },
         [.acquire (.userLock userID), .acquire .serviceMu,
          .acquire (.walletMu userID), .mutate userID,
          .acquire .serviceMu, .logAppend])

/-- `wallet.go`: `Withdraw`. -/
def Withdraw (ws : WalletService) (userID : String) (amount : Rat)
    (description : String) (nano sec : Int) :
    Option WalletError × WalletService × List Ev :=
  if amount ≤ 0 then
    (some .ErrInvalidAmount, ws, [])
  else
    match ws.wallets userID with
    | none =>
        (some .ErrUserNotFound, ws,
         [.acquire (.userLock userID), .acquire .serviceMu])
    | some wallet =>
        if wallet.Balance < amount then
          (some .ErrInsufficientBalance, ws,
           [.acquire (.userLock userID), .acquire .serviceMu,
            .acquire (.walletMu userID)])
        else
          let wallet' : Wallet := { wallet with Balance := wallet.Balance - amount }
          let tx : Transaction :=
            { ID := generateTransactionID nano
              FromUserID := userID
              ToUserID := userID
              Amount := amount
              Type' := .withdraw
              Description := description
              Timestamp := sec }
          (none,
           { ws with
              wallets := mapSet ws.wallets userID wallet'
              transactions := ws.transactions ++ [tx] },
           [.acquire (.userLock userID), .acquire .serviceMu,
            .acquire (.walletMu userID), .mutate userID,
            .acquire .serviceMu, .logAppend])

/-- `wallet.go`: `Transfer`. -/
def Transfer (ws : WalletService) (fromUserID toUserID : String) (amount : Rat)
    (description : String) (nano sec : Int) :
    Option WalletError × WalletService × List Ev :=
  if amount ≤ 0 then
    (some .ErrInvalidAmount, ws, [])
  else if fromUserID = toUserID then
    (some .ErrSameUserTransfer, ws, [])
  else
    match ws.wallets fromUserID, ws.wallets toUserID with
    | some fromWallet, some toWallet =>
        let p := getOrderedLocks fromUserID toUserID
        if fromWallet.Balance < amount then
          (some .ErrInsufficientBalance, ws,
           [.acquire .serviceMu, .acquire (.userLock p.1),
            .acquire (.userLock p.2), .acquire (.walletMu fromUserID)])
        else
          let fromWallet' : Wallet :=
            { fromWallet with Balance := fromWallet.Balance - amount }
          let toWallet' : Wallet :=
            { toWallet with Balance := toWallet.Balance + amount }
          let tx : Transaction :=
            { ID := generateTransactionID nano
              FromUserID := fromUserID
              ToUserID := toUserID
              Amount := amount
              Type' := .transfer
              Description := description
              Timestamp := sec }
          (none,
           { ws with
              wallets := mapSet (mapSet ws.wallets fromUserID fromWallet')
                           toUserID toWallet'
              transactions := ws.transactions ++ [tx] },
           [.acquire .serviceMu, .acquire (.userLock p.1),
            .acquire (.userLock p.2), .acquire (.walletMu fromUserID),
            .mutate fromUserID, .acquire (.walletMu toUserID),
            .mutate toUserID, .acquire .serviceMu, .logAppend])
    | _, _ =>
        (some .ErrUserNotFound, ws, [.acquire .serviceMu])

/-- `wallet.go`: `GetBalanceDecimal`. -/
def GetBalanceDecimal (ws : WalletService) (userID : String) :
    Option WalletError × Rat :=
  match ws.wallets userID with
  | none => (some .ErrUserNotFound, 0)
  | some wallet => (none, wallet.Balance)

/-- `wallet.go`: `GetTransactionHistory` (the loop is a filter over the
log in append order; Go's `nil` result on error is the empty list). -/
def GetTransactionHistory (ws : WalletService) (userID : String) :
    Option WalletError × List Transaction :=
  match ws.users userID with
  | none => (some .ErrUserNotFound, [])
  | some _ =>
      (none,
       ws.transactions.filter
         fun tx => tx.FromUserID == userID || tx.ToUserID == userID)

/-- One mutating call against the service, with its clock readings. -/
inductive Op
  | createUser (userID name email : String)
  | deposit (userID : String) (amount : Rat) (description : String) (nano sec : Int)
  | depositDecimal (userID : String) (amount : Rat) (description : String) (nano sec : Int)
  | withdraw (userID : String) (amount : Rat) (description : String) (nano sec : Int)
  | transfer (fromUserID toUserID : String) (amount : Rat) (description : String) (nano sec : Int)

/-- State after one call (failed calls leave the state as the code
left it, which on every error path is the entry state). -/
def step (ws : WalletService) : Op → WalletService
  | .createUser id n e => (CreateUser ws id n e).2
  | .deposit id a d n s => (Deposit ws id a d n s).2.1
  | .depositDecimal id a d n s => (DepositDecimal ws id a d n s).2.1
  | .withdraw id a d n s => (Withdraw ws id a d n s).2.1
  | .transfer f t a d n s => (Transfer ws f t a d n s).2.1

/-- State of a fresh service after a sequence of calls. -/
def run (ops : List Op) : WalletService :=
  ops.foldl step NewWalletService

/-- States reachable from `NewWalletService`. -/
def Reachable (ws : WalletService) : Prop :=
  ∃ ops, run ops = ws

/-- Balance observed for `id` (0 when no wallet is registered). -/
def balanceOf (ws : WalletService) (id : String) : Rat :=
  match ws.wallets id with
  | none => 0
  | some wallet => wallet.Balance

/-- Contribution of one logged transaction to the net position of `id`:
deposits to `id` plus incoming transfers, minus withdrawals from `id`
and outgoing transfers. -/
def txNet (id : String) (tx : Transaction) : Rat :=
  (if tx.Type' = .deposit ∧ tx.ToUserID = id then tx.Amount else 0)
    + (if tx.Type' = .transfer ∧ tx.ToUserID = id then tx.Amount else 0)
    - (if tx.Type' = .withdraw ∧ tx.FromUserID = id then tx.Amount else 0)
    - (if tx.Type' = .transfer ∧ tx.FromUserID = id then tx.Amount else 0)

/-- Net of the transaction log for `id`. -/
def logNet (txs : List Transaction) (id : String) : Rat :=
  (txs.map (txNet id)).sum

/-- The inductive invariant of the service: balances match the net of
the log, every account mentioned in the log has a wallet, and the
`users` and `wallets` maps are registered on the same ids. -/
def WSInv (ws : WalletService) : Prop :=
  (∀ id, balanceOf ws id = logNet ws.transactions id) ∧
  (∀ tx ∈ ws.transactions,
      (ws.wallets tx.FromUserID).isSome ∧ (ws.wallets tx.ToUserID).isSome) ∧
  (∀ id, (ws.users id).isSome ↔ (ws.wallets id).isSome)

theorem mapSet_self {α : Type} (m : String → Option α) (k : String) (v : α) :
    mapSet m k v k = some v := by
  simp [mapSet]

theorem mapSet_other {α : Type} (m : String → Option α) (k j : String) (v : α)
    (h : j ≠ k) : mapSet m k v j = m j := by
  simp [mapSet, h]

theorem isSome_mapSet {α : Type} (m : String → Option α) (k j : String) (v : α) :
    (mapSet m k v j).isSome ↔ j = k ∨ (m j).isSome := by
  by_cases h : j = k <;> simp [mapSet, h]

theorem txNet_eq_zero (id : String) (tx : Transaction)
    (hF : tx.FromUserID ≠ id) (hT : tx.ToUserID ≠ id) : txNet id tx = 0 := by
  simp [txNet, hF, hT]

theorem txNet_deposit (id k txid d : String) (a : Rat) (ts : Int) :
    txNet id { ID := txid, FromUserID := k, ToUserID := k, Amount := a,
               Type' := .deposit, Description := d, Timestamp := ts }
      = if k = id then a else 0 := by
  by_cases h : k = id <;> simp [txNet, h]

theorem txNet_withdraw (id k txid d : String) (a : Rat) (ts : Int) :
    txNet id { ID := txid, FromUserID := k, ToUserID := k, Amount := a,
               Type' := .withdraw, Description := d, Timestamp := ts }
      = if k = id then -a else 0 := by
  by_cases h : k = id <;> simp [txNet, h]

theorem txNet_transfer (id f t txid d : String) (a : Rat) (ts : Int) :
    txNet id { ID := txid, FromUserID := f, ToUserID := t, Amount := a,
               Type' := .transfer, Description := d, Timestamp := ts }
      = (if t = id then a else 0) - (if f = id then a else 0) := by
  by_cases hf : f = id <;> by_cases ht : t = id <;> simp [txNet, hf, ht]

theorem logNet_append (txs : List Transaction) (tx : Transaction) (id : String) :
    logNet (txs ++ [tx]) id = logNet txs id + txNet id tx := by
  simp [logNet]

theorem logNet_zero (txs : List Transaction) (id : String)
    (h : ∀ tx ∈ txs, txNet id tx = 0) : logNet txs id = 0 := by
  unfold logNet
  apply List.sum_eq_zero
  intro x hx
  obtain ⟨tx, htx, rfl⟩ := List.mem_map.mp hx
  exact h tx htx


set_option maxHeartbeats 1000000

theorem wsInv_CreateUser (ws : WalletService) (uid nm em : String)
    (h : WSInv ws) : WSInv (CreateUser ws uid nm em).2 := by
  obtain ⟨h1, h2, h3⟩ := h
  simp only [CreateUser]
  cases hu : ws.users uid with
  | some u => exact ⟨h1, h2, h3⟩
  | none =>
    have hwnone : ws.wallets uid = none := by
      have h' := h3 uid
      rw [hu] at h'
      simp at h'
      exact Option.not_isSome_iff_eq_none.mp (by simp [h'])
    refine ⟨?_, ?_, ?_⟩
    · intro id
      by_cases hid : id = uid
      · subst hid
        have hlz : logNet ws.transactions id = 0 := by
          apply logNet_zero
          intro tx htx
          refine txNet_eq_zero id tx ?_ ?_
          · intro hF
            have := (h2 tx htx).1
            rw [hF, hwnone] at this
            simp at this
          · intro hT
            have := (h2 tx htx).2
            rw [hT, hwnone] at this
            simp at this
        simp [balanceOf, mapSet, hlz]
      · simpa [balanceOf, mapSet, hid] using h1 id
    · intro tx htx
      constructor
      · rw [isSome_mapSet]; exact Or.inr (h2 tx htx).1
      · rw [isSome_mapSet]; exact Or.inr (h2 tx htx).2
    · intro id
      by_cases hid : id = uid
      · simp [mapSet, hid]
      · simp [mapSet, hid]
        exact Bool.eq_iff_iff.mpr (h3 id)

theorem wsInv_Deposit (ws : WalletService) (uid : String) (a : Rat)
    (d : String) (n s : Int) (h : WSInv ws) :
    WSInv (Deposit ws uid a d n s).2.1 := by
  obtain ⟨h1, h2, h3⟩ := h
  simp only [Deposit]
  by_cases ha : a ≤ 0
  · simp only [if_pos ha]
    exact ⟨h1, h2, h3⟩
  · simp only [if_neg ha]
    cases hw : ws.wallets uid with
    | none => exact ⟨h1, h2, h3⟩
    | some w =>
      refine ⟨?_, ?_, ?_⟩
      · intro id
        by_cases hid : id = uid
        · subst hid
          simp [balanceOf, mapSet, logNet_append, txNet_deposit, ← h1 id, hw]
        · have hid' : uid ≠ id := fun hh => hid hh.symm
          simpa [balanceOf, mapSet, hid, hid', logNet_append, txNet_deposit]
            using h1 id
      · intro tx htx
        rcases List.mem_append.mp htx with hold | hnew
        · exact ⟨(isSome_mapSet _ _ _ _).mpr (Or.inr (h2 tx hold).1),
            (isSome_mapSet _ _ _ _).mpr (Or.inr (h2 tx hold).2)⟩
        · rcases List.mem_singleton.mp hnew with rfl
          constructor <;> simp [mapSet]
      · intro id
        by_cases hid : id = uid
        · subst hid
          have husome : (ws.users id).isSome := (h3 id).mpr (by simp [hw])
          simp [mapSet, husome]
        · simp [mapSet, hid]
          exact Bool.eq_iff_iff.mpr (h3 id)

theorem DepositDecimal_eq_Deposit : DepositDecimal = Deposit := rfl

theorem wsInv_Withdraw (ws : WalletService) (uid : String) (a : Rat)
    (d : String) (n s : Int) (h : WSInv ws) :
    WSInv (Withdraw ws uid a d n s).2.1 := by
  obtain ⟨h1, h2, h3⟩ := h
  simp only [Withdraw]
  by_cases ha : a ≤ 0
  · simp only [if_pos ha]
    exact ⟨h1, h2, h3⟩
  · simp only [if_neg ha]
    cases hw : ws.wallets uid with
    | none => exact ⟨h1, h2, h3⟩
    | some w =>
      by_cases hins : w.Balance < a
      · simp only [if_pos hins]
        exact ⟨h1, h2, h3⟩
      · simp only [if_neg hins]
        refine ⟨?_, ?_, ?_⟩
        · intro id
          by_cases hid : id = uid
          · subst hid
            simp [balanceOf, mapSet, logNet_append, txNet_withdraw, ← h1 id, hw,
              sub_eq_add_neg]
          · have hid' : uid ≠ id := fun hh => hid hh.symm
            simpa [balanceOf, mapSet, hid, hid', logNet_append, txNet_withdraw]
              using h1 id
        · intro tx htx
          rcases List.mem_append.mp htx with hold | hnew
          · exact ⟨(isSome_mapSet _ _ _ _).mpr (Or.inr (h2 tx hold).1),
              (isSome_mapSet _ _ _ _).mpr (Or.inr (h2 tx hold).2)⟩
          · rcases List.mem_singleton.mp hnew with rfl
            constructor <;> simp [mapSet]
        · intro id
          by_cases hid : id = uid
          · subst hid
            have husome : (ws.users id).isSome := (h3 id).mpr (by simp [hw])
            simp [mapSet, husome]
          · simp [mapSet, hid]
            exact Bool.eq_iff_iff.mpr (h3 id)

theorem wsInv_Transfer (ws : WalletService) (f t : String) (a : Rat)
    (d : String) (n s : Int) (h : WSInv ws) :
    WSInv (Transfer ws f t a d n s).2.1 := by
  obtain ⟨h1, h2, h3⟩ := h
  simp only [Transfer]
  by_cases ha : a ≤ 0
  · simp only [if_pos ha]
    exact ⟨h1, h2, h3⟩
  · simp only [if_neg ha]
    by_cases hft : f = t
    · simp only [if_pos hft]
      exact ⟨h1, h2, h3⟩
    · simp only [if_neg hft]
      cases hwf : ws.wallets f with
      | none =>
        cases hwt : ws.wallets t with
        | none => exact ⟨h1, h2, h3⟩
        | some tw => exact ⟨h1, h2, h3⟩
      | some fw =>
        cases hwt : ws.wallets t with
        | none => exact ⟨h1, h2, h3⟩
        | some tw =>
          by_cases hins : fw.Balance < a
          · simp only [if_pos hins]
            exact ⟨h1, h2, h3⟩
          · simp only [if_neg hins]
            have htf : ¬ t = f := fun hh => hft hh.symm
            refine ⟨?_, ?_, ?_⟩
            · intro id
              by_cases hit : id = t
              · subst hit
                simp [balanceOf, mapSet, logNet_append, txNet_transfer, hft,
                  ← h1 id, hwt]
              · by_cases hif : id = f
                · subst hif
                  simp [balanceOf, mapSet, logNet_append, txNet_transfer, hft,
                    htf, ← h1 id, hwf, sub_eq_add_neg]
                · have hti : ¬ t = id := fun hh => hit hh.symm
                  have hfi : ¬ f = id := fun hh => hif hh.symm
                  simpa [balanceOf, mapSet, hit, hif, hti, hfi, logNet_append,
                    txNet_transfer] using h1 id
            · intro tx htx
              rcases List.mem_append.mp htx with hold | hnew
              · exact ⟨(isSome_mapSet _ _ _ _).mpr (Or.inr
                    ((isSome_mapSet _ _ _ _).mpr (Or.inr (h2 tx hold).1))),
                  (isSome_mapSet _ _ _ _).mpr (Or.inr
                    ((isSome_mapSet _ _ _ _).mpr (Or.inr (h2 tx hold).2)))⟩
              · rcases List.mem_singleton.mp hnew with rfl
                constructor <;> simp [mapSet, hft]
            · intro id
              by_cases hit : id = t
              · subst hit
                have husome : (ws.users id).isSome := (h3 id).mpr (by simp [hwt])
                simp [mapSet, husome]
              · by_cases hif : id = f
                · subst hif
                  have husome : (ws.users id).isSome := (h3 id).mpr (by simp [hwf])
                  simp [mapSet, hit, husome]
                · simp [mapSet, hit, hif]
                  exact Bool.eq_iff_iff.mpr (h3 id)

theorem wsInv_step (ws : WalletService) (op : Op) (h : WSInv ws) :
    WSInv (step ws op) := by
  cases op with
  | createUser uid nm em => exact wsInv_CreateUser ws uid nm em h
  | deposit uid a d n s => exact wsInv_Deposit ws uid a d n s h
  | depositDecimal uid a d n s =>
      simpa [step, DepositDecimal_eq_Deposit] using wsInv_Deposit ws uid a d n s h
  | withdraw uid a d n s => exact wsInv_Withdraw ws uid a d n s h
  | transfer f t a d n s => exact wsInv_Transfer ws f t a d n s h

theorem wsInv_new : WSInv NewWalletService := by
  refine ⟨?_, ?_, ?_⟩
  · intro id
    simp [balanceOf, logNet, NewWalletService]
  · intro tx htx
    simp [NewWalletService] at htx
  · intro id
    simp [NewWalletService]

theorem wsInv_foldl (ops : List Op) :
    ∀ ws, WSInv ws → WSInv (ops.foldl step ws) := by
  induction ops with
  | nil => intro ws h; exact h
  | cons op rest ih =>
      intro ws h
      exact ih (step ws op) (wsInv_step ws op h)

theorem wsInv_reachable (ws : WalletService) (h : Reachable ws) : WSInv ws := by
  obtain ⟨ops, rfl⟩ := h
  exact wsInv_foldl ops NewWalletService wsInv_new

/-- C1: in every state reachable from a fresh service by any sequence of
operations, each account balance equals the net of the transaction log for
that account: deposits to it plus incoming transfers, minus withdrawals from
it and outgoing transfers. -/
theorem balance_matches_log (ws : WalletService) (h : Reachable ws) :
    ∀ id, balanceOf ws id = logNet ws.transactions id :=
  (wsInv_reachable ws h).1

theorem balance_matches_log_witness :
    balanceOf (run [Op.createUser "alice" "A" "a@x", Op.deposit "alice" 100 "d1" 1 1,
        Op.createUser "bob" "B" "b@x", Op.transfer "alice" "bob" 30 "t1" 2 2,
        Op.withdraw "alice" 20 "w1" 3 3]) "alice"
      = logNet (run [Op.createUser "alice" "A" "a@x", Op.deposit "alice" 100 "d1" 1 1,
        Op.createUser "bob" "B" "b@x", Op.transfer "alice" "bob" 30 "t1" 2 2,
        Op.withdraw "alice" 20 "w1" 3 3]).transactions "alice" :=
  balance_matches_log _ ⟨[Op.createUser "alice" "A" "a@x", Op.deposit "alice" 100 "d1" 1 1,
    Op.createUser "bob" "B" "b@x", Op.transfer "alice" "bob" 30 "t1" 2 2,
    Op.withdraw "alice" 20 "w1" 3 3], rfl⟩ "alice"

theorem Transfer_invalidAmount (ws : WalletService) (f t : String) (amt : Rat)
    (d : String) (n s : Int) (ha : amt ≤ 0) :
    Transfer ws f t amt d n s = (some .ErrInvalidAmount, ws, []) := by
  simp [Transfer, ha]

theorem Transfer_sameUser (ws : WalletService) (f t : String) (amt : Rat)
    (d : String) (n s : Int) (ha : ¬ amt ≤ 0) (hft : f = t) :
    Transfer ws f t amt d n s = (some .ErrSameUserTransfer, ws, []) := by
  simp [Transfer, ha, hft]

theorem Transfer_userNotFound (ws : WalletService) (f t : String) (amt : Rat)
    (d : String) (n s : Int) (ha : ¬ amt ≤ 0) (hft : ¬ f = t)
    (hnf : ws.wallets f = none ∨ ws.wallets t = none) :
    Transfer ws f t amt d n s
      = (some .ErrUserNotFound, ws, [.acquire .serviceMu]) := by
  rcases hnf with hnf | hnf
  · cases hwt : ws.wallets t <;> simp [Transfer, ha, hft, hnf, hwt]
  · cases hwf : ws.wallets f <;> simp [Transfer, ha, hft, hnf, hwf]

theorem Transfer_insufficient (ws : WalletService) (f t : String) (amt : Rat)
    (d : String) (n s : Int) (fw tw : Wallet) (ha : ¬ amt ≤ 0) (hft : ¬ f = t)
    (hwf : ws.wallets f = some fw) (hwt : ws.wallets t = some tw)
    (hins : fw.Balance < amt) :
    Transfer ws f t amt d n s
      = (some .ErrInsufficientBalance, ws,
         [.acquire .serviceMu, .acquire (.userLock (getOrderedLocks f t).1),
          .acquire (.userLock (getOrderedLocks f t).2),
          .acquire (.walletMu f)]) := by
  simp [Transfer, ha, hft, hwf, hwt, hins]

theorem Transfer_success_shape (ws : WalletService) (f t : String) (amt : Rat)
    (d : String) (n s : Int) (fw tw : Wallet) (ha : ¬ amt ≤ 0) (hft : ¬ f = t)
    (hwf : ws.wallets f = some fw) (hwt : ws.wallets t = some tw)
    (hins : ¬ fw.Balance < amt) :
    Transfer ws f t amt d n s
      = (none,
         { ws with
            wallets := mapSet (mapSet ws.wallets f
                { UserID := fw.UserID, Balance := fw.Balance - amt }) t
                { UserID := tw.UserID, Balance := tw.Balance + amt }
            transactions := ws.transactions ++
              [{ ID := generateTransactionID n, FromUserID := f, ToUserID := t,
                 Amount := amt, Type' := .transfer, Description := d,
                 Timestamp := s }] },
         [.acquire .serviceMu, .acquire (.userLock (getOrderedLocks f t).1),
          .acquire (.userLock (getOrderedLocks f t).2), .acquire (.walletMu f),
          .mutate f, .acquire (.walletMu t), .mutate t, .acquire .serviceMu,
          .logAppend]) := by
  simp [Transfer, ha, hft, hwf, hwt, hins]

/-- C2: a `Transfer` that completes without error decreases the source
balance by exactly the amount, increases the destination balance by exactly
the amount, and preserves the sum of the two balances. -/
theorem transfer_conservation (ws : WalletService) (f t : String) (amt : Rat)
    (d : String) (n s : Int) (h : (Transfer ws f t amt d n s).1 = none) :
    balanceOf (Transfer ws f t amt d n s).2.1 f = balanceOf ws f - amt ∧
    balanceOf (Transfer ws f t amt d n s).2.1 t = balanceOf ws t + amt ∧
    balanceOf (Transfer ws f t amt d n s).2.1 f
        + balanceOf (Transfer ws f t amt d n s).2.1 t
      = balanceOf ws f + balanceOf ws t := by
  by_cases ha : amt ≤ 0
  · rw [Transfer_invalidAmount ws f t amt d n s ha] at h
    simp at h
  · by_cases hft : f = t
    · rw [Transfer_sameUser ws f t amt d n s ha hft] at h
      simp at h
    · cases hwf : ws.wallets f with
      | none =>
        rw [Transfer_userNotFound ws f t amt d n s ha hft (Or.inl hwf)] at h
        simp at h
      | some fw =>
        cases hwt : ws.wallets t with
        | none =>
          rw [Transfer_userNotFound ws f t amt d n s ha hft (Or.inr hwt)] at h
          simp at h
        | some tw =>
          by_cases hins : fw.Balance < amt
          · rw [Transfer_insufficient ws f t amt d n s fw tw ha hft hwf hwt hins] at h
            simp at h
          · rw [Transfer_success_shape ws f t amt d n s fw tw ha hft hwf hwt hins]
            have htf : ¬ t = f := fun hh => hft hh.symm
            refine ⟨?_, ?_, ?_⟩ <;>
              simp [balanceOf, mapSet, hft, htf, hwf, hwt]

theorem Withdraw_insufficient (ws : WalletService) (uid : String) (amt : Rat)
    (d : String) (n s : Int) (w : Wallet) (ha : ¬ amt ≤ 0)
    (hw : ws.wallets uid = some w) (hins : w.Balance < amt) :
    Withdraw ws uid amt d n s
      = (some .ErrInsufficientBalance, ws,
         [.acquire (.userLock uid), .acquire .serviceMu,
          .acquire (.walletMu uid)]) := by
  simp [Withdraw, ha, hw, hins]

/-- C3, counterexample to the claim as stated: with account "a" registered
at balance 0 < 5, the call `Transfer "a" "a" 5` is a call whose source
balance is below the amount, yet it fails with `ErrSameUserTransfer`, not
`ErrInsufficientBalance` (the same-account check precedes the balance
check). -/
theorem insufficient_claim_counterexample :
    balanceOf (CreateUser NewWalletService "a" "n" "e").2 "a" < 5 ∧
    (Transfer (CreateUser NewWalletService "a" "n" "e").2 "a" "a" 5 "" 0 0).1
      = some WalletError.ErrSameUserTransfer ∧
    (Transfer (CreateUser NewWalletService "a" "n" "e").2 "a" "a" 5 "" 0 0).1
      ≠ some WalletError.ErrInsufficientBalance := by
  refine ⟨by norm_num [CreateUser, NewWalletService, mapSet, balanceOf], by decide, by decide⟩

/-- C3, amended: a `Withdraw` from a registered account whose non-negative
balance is below the amount, and a `Transfer` between distinct registered
accounts whose source has a non-negative balance below the amount, fail with
`ErrInsufficientBalance` and return the state unchanged (hence every balance
and the log length are unchanged, no mutation and no log entry). -/
theorem insufficient_balance_rejected (ws : WalletService) (f t : String)
    (amt : Rat) (d : String) (n s : Int) (fw : Wallet)
    (hwf : ws.wallets f = some fw) (hnn : 0 ≤ fw.Balance)
    (hlt : fw.Balance < amt) :
    ((Withdraw ws f amt d n s).1 = some .ErrInsufficientBalance ∧
      (Withdraw ws f amt d n s).2.1 = ws) ∧
    (∀ tw, ws.wallets t = some tw → f ≠ t →
      (Transfer ws f t amt d n s).1 = some .ErrInsufficientBalance ∧
      (Transfer ws f t amt d n s).2.1 = ws) := by
  have ha : ¬ amt ≤ 0 := not_le.mpr (lt_of_le_of_lt hnn hlt)
  constructor
  · rw [Withdraw_insufficient ws f amt d n s fw ha hwf hlt]
    exact ⟨rfl, rfl⟩
  · intro tw hwt hft
    rw [Transfer_insufficient ws f t amt d n s fw tw ha hft hwf hwt hlt]
    exact ⟨rfl, rfl⟩

theorem insufficient_balance_rejected_witness :
    ((Withdraw (run [Op.createUser "w1" "n" "e", Op.createUser "w2" "n" "e"])
        "w1" 5 "" 0 0).1 = some WalletError.ErrInsufficientBalance ∧
      (Withdraw (run [Op.createUser "w1" "n" "e", Op.createUser "w2" "n" "e"])
        "w1" 5 "" 0 0).2.1
        = run [Op.createUser "w1" "n" "e", Op.createUser "w2" "n" "e"]) ∧
    ((Transfer (run [Op.createUser "w1" "n" "e", Op.createUser "w2" "n" "e"])
        "w1" "w2" 5 "" 0 0).1 = some WalletError.ErrInsufficientBalance ∧
      (Transfer (run [Op.createUser "w1" "n" "e", Op.createUser "w2" "n" "e"])
        "w1" "w2" 5 "" 0 0).2.1
        = run [Op.createUser "w1" "n" "e", Op.createUser "w2" "n" "e"]) :=
  ⟨(insufficient_balance_rejected _ "w1" "w2" 5 "" 0 0
      { UserID := "w1", Balance := 0 } rfl (by norm_num) (by norm_num)).1,
   (insufficient_balance_rejected _ "w1" "w2" 5 "" 0 0
      { UserID := "w1", Balance := 0 } rfl (by norm_num) (by norm_num)).2
     { UserID := "w2", Balance := 0 } rfl (by decide)⟩

/-- C4: `getOrderedLocks` is independent of argument order, returns the two
ids (each standing for its unique per-account lock) in lexicographic order,
and returns exactly the two ids that were passed; moreover whenever a
`Transfer` mutates any balance, its event trace starts with the registry
read lock followed by the two user locks in exactly the `getOrderedLocks`
order, and every balance mutation occurs after those acquisitions. -/
theorem transferLockOrder :
    (∀ x y : String, getOrderedLocks x y = getOrderedLocks y x) ∧
    (∀ x y : String, (getOrderedLocks x y).1 ≤ (getOrderedLocks x y).2) ∧
    (∀ x y : String, getOrderedLocks x y = (x, y) ∨ getOrderedLocks x y = (y, x)) ∧
    (∀ (ws : WalletService) (f t : String) (amt : Rat) (d : String) (n s : Int)
        (id : String), Ev.mutate id ∈ (Transfer ws f t amt d n s).2.2 →
      (Transfer ws f t amt d n s).2.2.take 3 =
        [Ev.acquire .serviceMu,
         Ev.acquire (.userLock (getOrderedLocks f t).1),
         Ev.acquire (.userLock (getOrderedLocks f t).2)] ∧
      Ev.mutate id ∈ (Transfer ws f t amt d n s).2.2.drop 3) := by
  refine ⟨?_, ?_, ?_, ?_⟩
  · intro x y
    unfold getOrderedLocks
    rcases lt_trichotomy x y with hlt | heq | hlt
    · rw [if_pos hlt, if_neg (not_lt.mpr hlt.le)]
    · subst heq
      simp
    · rw [if_neg (not_lt.mpr hlt.le), if_pos hlt]
  · intro x y
    unfold getOrderedLocks
    by_cases hlt : x < y
    · rw [if_pos hlt]
      exact hlt.le
    · rw [if_neg hlt]
      exact not_lt.mp hlt
  · intro x y
    unfold getOrderedLocks
    by_cases hlt : x < y
    · exact Or.inl (if_pos hlt)
    · exact Or.inr (if_neg hlt)
  · intro ws f t amt d n s id hmem
    by_cases ha : amt ≤ 0
    · rw [Transfer_invalidAmount ws f t amt d n s ha] at hmem
      simp at hmem
    · by_cases hft : f = t
      · rw [Transfer_sameUser ws f t amt d n s ha hft] at hmem
        simp at hmem
      · cases hwf : ws.wallets f with
        | none =>
          rw [Transfer_userNotFound ws f t amt d n s ha hft (Or.inl hwf)] at hmem
          simp at hmem
        | some fw =>
          cases hwt : ws.wallets t with
          | none =>
            rw [Transfer_userNotFound ws f t amt d n s ha hft (Or.inr hwt)] at hmem
            simp at hmem
          | some tw =>
            by_cases hins : fw.Balance < amt
            · rw [Transfer_insufficient ws f t amt d n s fw tw ha hft hwf hwt hins] at hmem
              simp at hmem
            · rw [Transfer_success_shape ws f t amt d n s fw tw ha hft hwf hwt hins] at hmem ⊢
              simp at hmem ⊢
              rcases hmem with rfl | rfl
              · simp
              · simp

/-- C5: a zero or negative amount makes `Deposit`, `Withdraw` and
`Transfer` fail with `ErrInvalidAmount` for any account ids registered or
not, with the state unchanged and an empty event trace, so the check
happens before any lock is taken and nothing is mutated or logged. -/
theorem invalid_amount_rejected (ws : WalletService) (uid f t : String)
    (amt : Rat) (d : String) (n s : Int) (ha : amt ≤ 0) :
    Deposit ws uid amt d n s = (some .ErrInvalidAmount, ws, []) ∧
    Withdraw ws uid amt d n s = (some .ErrInvalidAmount, ws, []) ∧
    Transfer ws f t amt d n s = (some .ErrInvalidAmount, ws, []) := by
  refine ⟨?_, ?_, ?_⟩ <;> simp [Deposit, Withdraw, Transfer, ha]

theorem invalid_amount_rejected_witness :
    Deposit NewWalletService "x" 0 "" 0 0
      = (some WalletError.ErrInvalidAmount, NewWalletService, []) ∧
    Withdraw NewWalletService "x" 0 "" 0 0
      = (some WalletError.ErrInvalidAmount, NewWalletService, []) ∧
    Transfer NewWalletService "x" "y" 0 "" 0 0
      = (some WalletError.ErrInvalidAmount, NewWalletService, []) :=
  invalid_amount_rejected NewWalletService "x" "x" "y" 0 "" 0 0 (by norm_num)

/-- C6, counterexample to the claim as stated: `Transfer "a" "a" 0` has
equal source and destination but fails with `ErrInvalidAmount`, not
`ErrSameUserTransfer`, because the amount validation precedes the
same-account check. -/
theorem same_account_claim_counterexample :
    (Transfer NewWalletService "a" "a" 0 "" 0 0).1
      = some WalletError.ErrInvalidAmount ∧
    (Transfer NewWalletService "a" "a" 0 "" 0 0).1
      ≠ some WalletError.ErrSameUserTransfer := by
  refine ⟨by decide, by decide⟩

/-- C6, amended: a `Transfer` with a strictly positive amount and equal
source and destination fails with `ErrSameUserTransfer`, with unchanged
state and an empty trace (so the check happens before any lock is taken),
regardless of registration status or balance. -/
theorem same_account_transfer_rejected (ws : WalletService) (f t : String)
    (amt : Rat) (d : String) (n s : Int) (ha : 0 < amt) (hft : f = t) :
    Transfer ws f t amt d n s = (some .ErrSameUserTransfer, ws, []) :=
  Transfer_sameUser ws f t amt d n s (not_le.mpr ha) hft

theorem same_account_transfer_rejected_witness :
    Transfer (CreateUser NewWalletService "a" "n" "e").2 "a" "a" 5 "" 0 0
      = (some WalletError.ErrSameUserTransfer,
         (CreateUser NewWalletService "a" "n" "e").2, []) :=
  same_account_transfer_rejected (CreateUser NewWalletService "a" "n" "e").2
    "a" "a" 5 "" 0 0 (by norm_num) rfl

theorem transfer_conservation_witness :
    balanceOf (Transfer (run [Op.createUser "alice" "A" "a@x",
        Op.deposit "alice" 100 "d" 1 1, Op.createUser "bob" "B" "b@x"])
        "alice" "bob" 30 "t" 2 2).2.1 "alice"
      = balanceOf (run [Op.createUser "alice" "A" "a@x",
        Op.deposit "alice" 100 "d" 1 1, Op.createUser "bob" "B" "b@x"]) "alice" - 30 ∧
    balanceOf (Transfer (run [Op.createUser "alice" "A" "a@x",
        Op.deposit "alice" 100 "d" 1 1, Op.createUser "bob" "B" "b@x"])
        "alice" "bob" 30 "t" 2 2).2.1 "bob"
      = balanceOf (run [Op.createUser "alice" "A" "a@x",
        Op.deposit "alice" 100 "d" 1 1, Op.createUser "bob" "B" "b@x"]) "bob" + 30 ∧
    balanceOf (Transfer (run [Op.createUser "alice" "A" "a@x",
        Op.deposit "alice" 100 "d" 1 1, Op.createUser "bob" "B" "b@x"])
        "alice" "bob" 30 "t" 2 2).2.1 "alice"
        + balanceOf (Transfer (run [Op.createUser "alice" "A" "a@x",
        Op.deposit "alice" 100 "d" 1 1, Op.createUser "bob" "B" "b@x"])
        "alice" "bob" 30 "t" 2 2).2.1 "bob"
      = balanceOf (run [Op.createUser "alice" "A" "a@x",
        Op.deposit "alice" 100 "d" 1 1, Op.createUser "bob" "B" "b@x"]) "alice"
        + balanceOf (run [Op.createUser "alice" "A" "a@x",
        Op.deposit "alice" 100 "d" 1 1, Op.createUser "bob" "B" "b@x"]) "bob" :=
  transfer_conservation _ "alice" "bob" 30 "t" 2 2
    (by norm_num +decide [run, step, Transfer, Deposit, CreateUser,
      NewWalletService, mapSet, getOrderedLocks, generateTransactionID])

theorem transferLockOrder_witness :
    (Transfer (run [Op.createUser "alice" "A" "a@x",
        Op.createUser "bob" "B" "b@x", Op.deposit "bob" 100 "d" 1 1])
        "bob" "alice" 30 "t" 2 2).2.2.take 3 =
      [Ev.acquire .serviceMu,
       Ev.acquire (.userLock (getOrderedLocks "bob" "alice").1),
       Ev.acquire (.userLock (getOrderedLocks "bob" "alice").2)] ∧
    Ev.mutate "alice" ∈ (Transfer (run [Op.createUser "alice" "A" "a@x",
        Op.createUser "bob" "B" "b@x", Op.deposit "bob" 100 "d" 1 1])
        "bob" "alice" 30 "t" 2 2).2.2.drop 3 :=
  transferLockOrder.2.2.2 _ "bob" "alice" 30 "t" 2 2 "alice"
    (by norm_num +decide [run, step, Transfer, Deposit, CreateUser,
      NewWalletService, mapSet, getOrderedLocks, generateTransactionID])

/-- C7: transaction ids are derived from a wall-clock reading, so two
operations that observe the same nanosecond value append two log entries
with identical ids — the ids of the transaction log are not always
pairwise distinct, contrary to the documented uniqueness. -/
theorem clock_collision_duplicates_ids :
    ¬ ((run [Op.createUser "a" "n" "e", Op.deposit "a" 1 "" 7 7,
        Op.deposit "a" 1 "" 7 7]).transactions.map Transaction.ID).Nodup ∧
    ((run [Op.createUser "a" "n" "e", Op.deposit "a" 1 "" 7 7,
        Op.deposit "a" 1 "" 7 7]).transactions.map Transaction.ID)
      = ["tx_7", "tx_7"] := by
  refine ⟨by decide, by decide⟩

/-- C8: `GetTransactionHistory` fails with `ErrUserNotFound` exactly for an
unregistered id, and for a registered id succeeds and returns, in append
order (a sublist of the log), exactly those transactions whose source or
destination equals the id. -/
theorem history_spec (ws : WalletService) (uid : String) :
    (ws.users uid = none →
      GetTransactionHistory ws uid = (some .ErrUserNotFound, [])) ∧
    (∀ u, ws.users uid = some u →
      (GetTransactionHistory ws uid).1 = none ∧
      List.Sublist (GetTransactionHistory ws uid).2 ws.transactions ∧
      (∀ tx, tx ∈ (GetTransactionHistory ws uid).2 ↔
        tx ∈ ws.transactions ∧ (tx.FromUserID = uid ∨ tx.ToUserID = uid))) := by
  constructor
  · intro h
    simp [GetTransactionHistory, h]
  · intro u h
    refine ⟨by simp [GetTransactionHistory, h], ?_, ?_⟩
    · simp only [GetTransactionHistory, h]
      exact List.filter_sublist _
    · intro tx
      simp [GetTransactionHistory, h, List.mem_filter]

/-- C9: `CreateUser` fails with `ErrUserAlreadyExists` and leaves the state
unchanged when the id is already registered; otherwise it succeeds,
inserting the user and a wallet with balance exactly zero while leaving
every other id and the transaction log untouched. -/
theorem createUser_spec (ws : WalletService) (uid nm em : String) :
    (∀ u, ws.users uid = some u →
      CreateUser ws uid nm em = (some .ErrUserAlreadyExists, ws)) ∧
    (ws.users uid = none →
      (CreateUser ws uid nm em).1 = none ∧
      (CreateUser ws uid nm em).2.users uid
        = some { ID := uid, Name := nm, Email := em } ∧
      (CreateUser ws uid nm em).2.wallets uid
        = some { UserID := uid, Balance := 0 } ∧
      (∀ j, j ≠ uid → (CreateUser ws uid nm em).2.users j = ws.users j ∧
        (CreateUser ws uid nm em).2.wallets j = ws.wallets j) ∧
      (CreateUser ws uid nm em).2.transactions = ws.transactions) := by
  constructor
  · intro u h
    simp [CreateUser, h]
  · intro h
    refine ⟨by simp [CreateUser, h], by simp [CreateUser, h, mapSet],
      by simp [CreateUser, h, mapSet], ?_, by simp [CreateUser, h]⟩
    intro j hj
    constructor <;> simp [CreateUser, h, mapSet, hj]

theorem createUser_spec_witness :
    ((CreateUser NewWalletService "u" "N" "E").1 = none ∧
      (CreateUser NewWalletService "u" "N" "E").2.users "u"
        = some { ID := "u", Name := "N", Email := "E" } ∧
      (CreateUser NewWalletService "u" "N" "E").2.wallets "u"
        = some { UserID := "u", Balance := 0 } ∧
      (∀ j, j ≠ "u" → (CreateUser NewWalletService "u" "N" "E").2.users j
          = NewWalletService.users j ∧
        (CreateUser NewWalletService "u" "N" "E").2.wallets j
          = NewWalletService.wallets j) ∧
      (CreateUser NewWalletService "u" "N" "E").2.transactions
        = NewWalletService.transactions) ∧
    CreateUser (CreateUser NewWalletService "u" "N" "E").2 "u" "N2" "E2"
      = (some WalletError.ErrUserAlreadyExists,
         (CreateUser NewWalletService "u" "N" "E").2) :=
  ⟨(createUser_spec NewWalletService "u" "N" "E").2 rfl,
   (createUser_spec (CreateUser NewWalletService "u" "N" "E").2 "u" "N2" "E2").1
     { ID := "u", Name := "N", Email := "E" } rfl⟩

/-- C10: in every reachable state the set of registered user ids equals the
set of wallet ids, and consequently `GetBalanceDecimal` fails with
`ErrUserNotFound` exactly when `GetTransactionHistory` does. -/
theorem registry_wallets_sync (ws : WalletService) (h : Reachable ws) :
    (∀ id, (ws.users id).isSome ↔ (ws.wallets id).isSome) ∧
    (∀ id, (GetBalanceDecimal ws id).1 = some .ErrUserNotFound ↔
      (GetTransactionHistory ws id).1 = some .ErrUserNotFound) := by
  have h3 := (wsInv_reachable ws h).2.2
  refine ⟨h3, ?_⟩
  intro id
  have hw := h3 id
  cases hu : ws.users id with
  | none =>
    have hwn : ws.wallets id = none := by
      rw [hu] at hw
      simp at hw
      exact Option.not_isSome_iff_eq_none.mp (by simp [hw])
    simp [GetBalanceDecimal, GetTransactionHistory, hu, hwn]
  | some u =>
    have hws : ∃ w, ws.wallets id = some w := by
      rw [hu] at hw
      simp at hw
      exact Option.isSome_iff_exists.mp hw
    obtain ⟨w, hwid⟩ := hws
    simp [GetBalanceDecimal, GetTransactionHistory, hu, hwid]

theorem history_spec_witness :
    GetTransactionHistory NewWalletService "z"
      = (some WalletError.ErrUserNotFound, []) ∧
    (GetTransactionHistory (run [Op.createUser "u1" "A" "a@x",
        Op.createUser "u2" "B" "b@x", Op.deposit "u1" 100 "d" 1 1,
        Op.transfer "u1" "u2" 40 "t" 2 2]) "u2").1 = none ∧
    List.Sublist (GetTransactionHistory (run [Op.createUser "u1" "A" "a@x",
        Op.createUser "u2" "B" "b@x", Op.deposit "u1" 100 "d" 1 1,
        Op.transfer "u1" "u2" 40 "t" 2 2]) "u2").2
      (run [Op.createUser "u1" "A" "a@x", Op.createUser "u2" "B" "b@x",
        Op.deposit "u1" 100 "d" 1 1,
        Op.transfer "u1" "u2" 40 "t" 2 2]).transactions :=
  ⟨(history_spec NewWalletService "z").1 rfl,
   ((history_spec _ "u2").2 { ID := "u2", Name := "B", Email := "b@x" }
     (by norm_num +decide [run, step, Transfer, Deposit, CreateUser,
       NewWalletService, mapSet, getOrderedLocks, generateTransactionID])).1,
   ((history_spec _ "u2").2 { ID := "u2", Name := "B", Email := "b@x" }
     (by norm_num +decide [run, step, Transfer, Deposit, CreateUser,
       NewWalletService, mapSet, getOrderedLocks, generateTransactionID])).2.1⟩

theorem registry_wallets_sync_witness :
    (((run [Op.createUser "p" "P" "p@x", Op.deposit "p" 50 "d" 1 1]).users "p").isSome
      ↔ ((run [Op.createUser "p" "P" "p@x",
          Op.deposit "p" 50 "d" 1 1]).wallets "p").isSome) ∧
    ((GetBalanceDecimal (run [Op.createUser "p" "P" "p@x",
          Op.deposit "p" 50 "d" 1 1]) "q").1 = some WalletError.ErrUserNotFound
      ↔ (GetTransactionHistory (run [Op.createUser "p" "P" "p@x",
          Op.deposit "p" 50 "d" 1 1]) "q").1 = some WalletError.ErrUserNotFound) :=
  ⟨(registry_wallets_sync _ ⟨[Op.createUser "p" "P" "p@x",
      Op.deposit "p" 50 "d" 1 1], rfl⟩).1 "p",
   (registry_wallets_sync _ ⟨[Op.createUser "p" "P" "p@x",
      Op.deposit "p" 50 "d" 1 1], rfl⟩).2 "q"⟩
